import Mathlib

/-!
Shallow embedding of the resilient API access layer of the `rpctl` CLI:
the exception taxonomy (`errors.py`), the backoff calculator and retry
engine (`api/retry.py`), the batch executor (`services/parallel.py`),
the poll helper (`services/poll.py`), and the error-classification paths
of the API clients (`api/graphql_client.py`, `api/rest_client.py`).

Modelling conventions:
- Python floats are modelled as rationals (`ℚ`); all float arithmetic in
  the embedded code is exact at the magnitudes involved.
- Python exceptions become an inductive type `Exc`; raising becomes
  `Except.error`.
- The nondeterministic jitter (`random.uniform(0, delay * 0.5)`) is
  lifted to an explicit parameter; theorems quantify over it under the
  bound the sampler guarantees.
- Real time (`time.monotonic`, `time.sleep`) is modelled by an explicit
  sequence of clock readings `times : ℕ → ℚ`; performed sleeps are
  recorded in a trace instead of blocking.
- Thread-pool completion order (`as_completed`) is modelled by an
  explicit list `order`, quantified over all permutations of the input.
-/

namespace Rpctl

/-- Python dict results are modelled as association lists. -/
abbrev Dict := List (String × String)

/-- Exception taxonomy of `errors.py`, plus the Python built-in
network-level exceptions caught by the retry engine
(`ConnectionError`, `TimeoutError`, `OSError`).  `apiError` carries the
optional `status_code` and the dynamically attached `retry_after`
attribute (set by the GraphQL client on 429 responses).
`resourceNotFoundError` is a subclass of `ApiError` in the source; it is
a separate constructor here and every dispatch mirrors the source's
`except`-clause ordering. -/
inductive Exc where
  | authenticationError (msg : String)
  | configError (msg : String)
  | apiError (msg : String) (status_code : Option ℤ) (retry_after : Option ℚ)
  | resourceNotFoundError (msg : String) (status_code : Option ℤ)
  | presetError (msg : String)
  | validationError (msg : String)
  | connectionError (msg : String)
  | timeoutError (msg : String)
  | osError (msg : String)
  deriving DecidableEq, Repr

/-- The frozenset `ApiError._TRANSIENT_STATUS_CODES` from `errors.py`. -/
def TRANSIENT_STATUS_CODES : List ℤ := [408, 429, 500, 502, 503, 504]

/-- The `is_transient` property: defined on `ApiError` from the status
code, overridden to `False` on `AuthenticationError` and
`ResourceNotFoundError`.  The remaining kinds have no such property in
the source and the retry engine never queries it on them; they are
mapped to `false`. -/
def Exc.is_transient : Exc → Bool
  | .authenticationError _ => false
  | .resourceNotFoundError _ _ => false
  | .apiError _ status _ =>
      match status with
      | none => false
      | some s => decide (s ∈ TRANSIENT_STATUS_CODES)
  | _ => false

/-- The per-kind `exit_code` class attribute (`errors.py`); the Python
built-in exceptions carry none. -/
def Exc.exit_code : Exc → Option ℤ
  | .authenticationError _ => some 2
  | .configError _ => some 3
  | .apiError _ _ _ => some 4
  | .resourceNotFoundError _ _ => some 5
  | .presetError _ => some 6
  | .validationError _ => some 7
  | _ => none

/-- Python `str(e)`: the message the exception was constructed with. -/
def Exc.str : Exc → String
  | .authenticationError m => m
  | .configError m => m
  | .apiError m _ _ => m
  | .resourceNotFoundError m _ => m
  | .presetError m => m
  | .validationError m => m
  | .connectionError m => m
  | .timeoutError m => m
  | .osError m => m

/-- Python `getattr(e, "retry_after", None)`: only `ApiError` instances
ever have the attribute attached. -/
def Exc.get_retry_after : Exc → Option ℚ
  | .apiError _ _ ra => ra
  | _ => none

/-- Recognizer for the `ResourceNotFoundError` kind. -/
def Exc.isResourceNotFound : Exc → Bool
  | .resourceNotFoundError _ _ => true
  | _ => false

/-- The function `_calculate_delay` of `api/retry.py`: exponential
backoff with jitter, overridden by a positive server-supplied
`retry_after` hint capped at `max_delay`.  The sampled jitter
`random.uniform(0, delay * 0.5)` is passed in explicitly. -/
def _calculate_delay (attempt : ℤ) (base max_delay : ℚ)
    (retry_after : Option ℚ) (jitter : ℚ) : ℚ :=
  match retry_after with
  | some r =>
      if 0 < r then min r max_delay
      else min (base * (2 : ℚ) ^ (attempt - 1) + jitter) max_delay
  | none => min (base * (2 : ℚ) ^ (attempt - 1) + jitter) max_delay

/-- Modelled from the spec, section 4.2, for comparison with the
source's `_calculate_delay`: "If `retry_after` is present and > 0:
return `min(retry_after, max_delay)` — server hint always wins, no
jitter applied.  Else: `raw = base * 2^(attempt-1)` (attempt is
1-indexed); `jitter = uniform(0, raw*0.5)`; return
`min(raw+jitter, max_delay)`." -/
def delaySpec (attempt : ℤ) (base max_delay : ℚ)
    (retry_after : Option ℚ) (jitter : ℚ) : ℚ :=
  if (match retry_after with | some r => decide (0 < r) | none => false) = true then
    min (retry_after.getD 0) max_delay
  else
    min (base * (2 : ℚ) ^ (attempt - 1) + jitter) max_delay

/-- Outcome of a `retry_on_transient` call.  `typeError` models the
`raise last_exception` at the end of the loop executing with
`last_exception` still `None` (Python raises a `TypeError` there). -/
inductive RetryOutcome (α : Type) where
  | value (v : α)
  | raised (e : Exc)
  | typeError
  deriving DecidableEq, Repr

/-- Loop body of `retry_on_transient` (`api/retry.py`).  The `remaining`
fuel counts loop iterations left in `range(1, max_attempts + 1)`;
`attempt` is the 1-indexed Python loop variable.  The operation `op` is
the thunk `func(*args, **kwargs)`, indexed by invocation number so a
single embedding covers stateful operations.  The returned trace is
`(outcome, number of invocations of op, list of time.sleep durations)`. -/
def retryAux {α : Type} (op : ℤ → Except Exc α) (max_attempts : ℤ)
    (base_delay max_delay : ℚ) (jitter : ℤ → ℚ) :
    (remaining : ℕ) → (attempt : ℤ) → (last : Option Exc) →
    (calls : ℕ) → (sleeps : List ℚ) → RetryOutcome α × ℕ × List ℚ
  | 0, _, last, calls, sleeps =>
      (match last with
       | some e => .raised e
       | none => .typeError, calls, sleeps)
  | remaining + 1, attempt, _last, calls, sleeps =>
      match op attempt with
      | .ok v => (.value v, calls + 1, sleeps)
      | .error e =>
        match e with
        | .authenticationError _ => (.raised e, calls + 1, sleeps)
        | .resourceNotFoundError _ _ => (.raised e, calls + 1, sleeps)
        | .apiError _ _ _ =>
            if e.is_transient = false ∨ attempt = max_attempts then
              (.raised e, calls + 1, sleeps)
            else
              let delay := _calculate_delay attempt base_delay max_delay
                e.get_retry_after (jitter attempt)
              retryAux op max_attempts base_delay max_delay jitter
                remaining (attempt + 1) (some e) (calls + 1) (sleeps ++ [delay])
        | .connectionError _ | .timeoutError _ | .osError _ =>
            if attempt = max_attempts then
              (.raised (.apiError
                  ("Connection failed after " ++ toString max_attempts
                    ++ " attempts: " ++ e.str) none none),
               calls + 1, sleeps)
            else
              let delay := _calculate_delay attempt base_delay max_delay
                none (jitter attempt)
              retryAux op max_attempts base_delay max_delay jitter
                remaining (attempt + 1) (some e) (calls + 1) (sleeps ++ [delay])
        | _ => (.raised e, calls + 1, sleeps)

/-- The function `retry_on_transient` of `api/retry.py`: run `op` up to
`max_attempts` times (`for attempt in range(1, max_attempts + 1)`),
re-attempting only on transient `ApiError`s and network-level
exceptions, never on `AuthenticationError`/`ResourceNotFoundError`. -/
def retry_on_transient {α : Type} (op : ℤ → Except Exc α) (max_attempts : ℤ)
    (base_delay max_delay : ℚ) (jitter : ℤ → ℚ) : RetryOutcome α × ℕ × List ℚ :=
  retryAux op max_attempts base_delay max_delay jitter max_attempts.toNat 1 none 0 []

/-- The dataclass `BatchResult` of `services/parallel.py`. -/
structure BatchResult (β γ : Type) where
  succeeded : List γ
  failed : List (β × Exc)
  deriving DecidableEq, Repr

/-- Derived property `BatchResult.total`. -/
def BatchResult.total {β γ : Type} (r : BatchResult β γ) : ℕ :=
  r.succeeded.length + r.failed.length

/-- Derived property `BatchResult.all_ok`. -/
def BatchResult.all_ok {β γ : Type} (r : BatchResult β γ) : Bool :=
  r.failed.length == 0

/-- The exception `StopOnError` of `services/parallel.py`; `msg` is the
f-string it is raised with and `cause` the `from exc` cause. -/
structure StopOnError where
  msg : String
  cause : Exc
  deriving DecidableEq, Repr

/-- The fixed worker-pool ceiling `MAX_WORKERS_CAP`. -/
def MAX_WORKERS_CAP : ℕ := 20

/-- The effective worker count
`min(max(1, max_workers), MAX_WORKERS_CAP, len(items))`. -/
def effectiveWorkers (max_workers : ℕ) (itemCount : ℕ) : ℕ :=
  min (min (max 1 max_workers) MAX_WORKERS_CAP) itemCount

/-- The `as_completed` collection loop of `parallel_map`
(`services/parallel.py`): each completed future either appends its value
to `succeeded` or appends `(item, exc)` to `failed`; with
`stop_on_error` the first failure raises `StopOnError` naming the item
(via `toStr`, Python's f-string interpolation) and carrying the cause,
and the accumulated `BatchResult` is discarded. -/
def collectLoop {β γ : Type} (f : β → Except Exc γ) (toStr : β → String)
    (stop_on_error : Bool) :
    List β → BatchResult β γ → Except StopOnError (BatchResult β γ)
  | [], res => .ok res
  | item :: rest, res =>
      match f item with
      | .ok v =>
          collectLoop f toStr stop_on_error rest ⟨res.succeeded ++ [v], res.failed⟩
      | .error exc =>
          let res' : BatchResult β γ := ⟨res.succeeded, res.failed ++ [(item, exc)]⟩
          if stop_on_error then
            .error ⟨"Stopped on error processing " ++ toStr item ++ ": " ++ exc.str, exc⟩
          else
            collectLoop f toStr stop_on_error rest res'

/-- The function `parallel_map` of `services/parallel.py`.  The
thread-pool concurrency is abstracted by `order`, the sequence in which
`as_completed` yields the futures; theorems quantify over every
permutation of `items`.  Each item's operation is the pure outcome of
`func(item)`. -/
def parallel_map {β γ : Type} (f : β → Except Exc γ) (toStr : β → String)
    (items order : List β) (stop_on_error : Bool) :
    Except StopOnError (BatchResult β γ) :=
  if items.isEmpty then .ok ⟨[], []⟩
  else collectLoop f toStr stop_on_error order ⟨[], []⟩

/-- Outcome of a `poll_until` call.  `fuelOut` is an artifact of the
fuel-bounded embedding of the unbounded `while True` loop; theorems
supply enough fuel that it never occurs. -/
inductive PollOutcome where
  | ok
  | timeoutErr (msg : String)
  | fuelOut
  deriving DecidableEq, Repr

/-- The message of the `PollTimeoutError` raised by `poll_until`
(`services/poll.py`). -/
def timeoutMessage (timeout : ℚ) (label status : String) : String :=
  "Timed out after " ++ toString timeout ++ "s waiting for " ++ label
    ++ ". Last status: " ++ status

/-- Loop body of `poll_until` (`services/poll.py`).  `times n` is the
value `time.monotonic()` returns at its `n`-th call; `k` counts
invocations of `check_fn` and `r` indexes the next clock reading (each
iteration reads the clock for the deadline test and, when it continues,
once more for `remaining`).  The trace records `(outcome, number of
check_fn calls, time.sleep durations)`. -/
def pollAux (check : ℕ → Bool × String) (deadline timeout interval : ℚ)
    (label : String) (times : ℕ → ℚ) :
    (fuel k r : ℕ) → (sleeps : List ℚ) → PollOutcome × ℕ × List ℚ
  | 0, k, _, sleeps => (.fuelOut, k, sleeps)
  | fuel + 1, k, r, sleeps =>
      let res := check k
      if res.1 then (.ok, k + 1, sleeps)
      else if deadline ≤ times r then
        (.timeoutErr (timeoutMessage timeout label res.2), k + 1, sleeps)
      else
        let remaining := deadline - times (r + 1)
        pollAux check deadline timeout interval label times fuel (k + 1) (r + 2)
          (sleeps ++ [min interval (max 0 remaining)])

/-- The function `poll_until` of `services/poll.py`:
`deadline = time.monotonic() + timeout` uses the clock's reading 0, and
the loop starts with reading 1. -/
def poll_until (check : ℕ → Bool × String) (timeout interval : ℚ)
    (label : String) (times : ℕ → ℚ) (fuel : ℕ) : PollOutcome × ℕ × List ℚ :=
  pollAux check (times 0 + timeout) timeout interval label times fuel 0 1 []

/-- ASCII lowercasing, modelling Python's `str.lower()` on the ASCII
messages the clients produce. -/
def strLower (s : String) : String := ⟨s.data.map Char.toLower⟩

/-- Substring occurrence on character lists. -/
def containsList (needle : List Char) : List Char → Bool
  | [] => needle.isEmpty
  | c :: rest => needle.isPrefixOf (c :: rest) || containsList needle rest

/-- Python's `needle in haystack` on strings. -/
def strContains (haystack needle : String) : Bool :=
  containsList needle.data haystack.data

/-- Python regex word character (`\w`), ASCII range. -/
def isWordChar (c : Char) : Bool := c.isAlphanum || c = '_'

/-- Numeric value of an ASCII digit. -/
def digitVal (c : Char) : ℤ := (c.toNat : ℤ) - 48

/-- Whether the regex `\b(4\d{2}|5\d{2})\b` of `rest_client.py` matches
`chars` at index `i`, and the matched number. -/
def statusAt (chars : List Char) (i : ℕ) : Option ℤ :=
  match chars.get? i, chars.get? (i + 1), chars.get? (i + 2) with
  | some a, some b, some c =>
      let boundaryBefore : Bool :=
        match i with
        | 0 => true
        | j + 1 => !isWordChar (chars.getD j ' ')
      let boundaryAfter : Bool :=
        match chars.get? (i + 3) with
        | none => true
        | some d => !isWordChar d
      if (a == '4' || a == '5') && b.isDigit && c.isDigit
          && boundaryBefore && boundaryAfter then
        some (digitVal a * 100 + digitVal b * 10 + digitVal c)
      else none
  | _, _, _ => none

/-- Leftmost-match scan for `statusAt`, mirroring `re.search`. -/
def findStatusAux (chars : List Char) : (fuel i : ℕ) → Option ℤ
  | 0, _ => none
  | fuel + 1, i =>
      match statusAt chars i with
      | some v => some v
      | none => findStatusAux chars fuel (i + 1)

/-- The function `_extract_status_code` of `api/rest_client.py`:
best-effort extraction of an HTTP status code (regex
`\b(4\d{2}|5\d{2})\b`, first match) from an SDK error message. -/
def _extract_status_code (msg : String) : Option ℤ :=
  findStatusAux msg.data (msg.data.length + 1) 0

/-- The method `RestClient._call_once` of `api/rest_client.py`: the SDK
call either returns a value or raises a generic exception with a string
message, which is classified by message sniffing. -/
def _call_once {α : Type} (sdkResult : Except String α) : Except Exc α :=
  match sdkResult with
  | .ok v => .ok v
  | .error msg =>
      if strContains msg "401" || strContains (strLower msg) "unauthorized" then
        .error (.authenticationError "Invalid API key.")
      else if strContains msg "404" || strContains (strLower msg) "not found" then
        .error (.resourceNotFoundError msg none)
      else
        .error (.apiError ("RunPod API error: " ++ msg) (_extract_status_code msg) none)

/-- The method `RestClient.get_pod`: the retried SDK lookup result
(`none` models Python `None`, an empty list an empty dict — both falsy)
is turned into `ResourceNotFoundError` when falsy. -/
def get_pod (pod_id : String) (callResult : Except Exc (Option Dict)) :
    Except Exc Dict :=
  match callResult with
  | .error e => .error e
  | .ok none =>
      .error (.resourceNotFoundError ("Pod '" ++ pod_id ++ "' not found.") none)
  | .ok (some d) =>
      if d.isEmpty then
        .error (.resourceNotFoundError ("Pod '" ++ pod_id ++ "' not found.") none)
      else .ok d

/-- Outcome of the single HTTP POST inside
`GraphQLClient._execute_once`: a transport-level exception or a response
with a status code, an optional `Retry-After` header, and a body whose
`errors` key may be present (`body_errors`) and whose `data` key may be
present (`body_data`). -/
inductive GqlHttpResult where
  | connectError (msg : String)
  | timeoutExc (msg : String)
  | response (status_code : ℤ) (retry_after_header : Option String)
      (body_errors : Option (List String)) (body_data : Option Dict)
  deriving DecidableEq, Repr

/-- The method `GraphQLClient._execute_once` of `api/graphql_client.py`.
`parseFloat` models Python's `float(str)` parser, returning `none` on
`ValueError` (the source suppresses it); an empty header string is falsy
and skipped. -/
def _execute_once (parseFloat : String → Option ℚ) (res : GqlHttpResult) :
    Except Exc Dict :=
  match res with
  | .connectError m =>
      .error (.apiError ("Cannot connect to RunPod API: " ++ m) (some 503) none)
  | .timeoutExc m =>
      .error (.apiError ("Request timed out: " ++ m) (some 408) none)
  | .response status hdr errs dat =>
      if status = 401 then .error (.authenticationError "Invalid API key.")
      else if status = 429 then
        let ra : Option ℚ :=
          match hdr with
          | none => none
          | some s => if s = "" then none else parseFloat s
        .error (.apiError "Rate limited by RunPod API" (some 429) ra)
      else if status ≠ 200 then
        .error (.apiError ("GraphQL request failed with status " ++ toString status)
          (some status) none)
      else
        match errs with
        | some es =>
            .error (.apiError ("GraphQL error: " ++ String.intercalate "; " es) none none)
        | none => .ok (dat.getD [])

/-- Successful outcome of one item's operation, as collected into
`BatchResult.succeeded`. -/
def okOf {β γ : Type} (f : β → Except Exc γ) (a : β) : Option γ :=
  (f a).toOption

/-- Failure outcome of one item's operation, as collected into
`BatchResult.failed`. -/
def errOf {β γ : Type} (f : β → Except Exc γ) (a : β) : Option (β × Exc) :=
  match f a with
  | .error e => some (a, e)
  | .ok _ => none

/-! Helper lemmas. -/

lemma calculate_delay_bounds (attempt : ℤ) (base max_delay : ℚ)
    (ra : Option ℚ) (j : ℚ) (hbase : 0 ≤ base) (hmax : 0 ≤ max_delay)
    (hj : 0 ≤ j) :
    0 ≤ _calculate_delay attempt base max_delay ra j ∧
    _calculate_delay attempt base max_delay ra j ≤ max_delay := by
  have hraw : 0 ≤ base * (2 : ℚ) ^ (attempt - 1) + j :=
    add_nonneg (mul_nonneg hbase (zpow_nonneg (by norm_num) _)) hj
  unfold _calculate_delay
  cases ra with
  | none => exact ⟨le_min hraw hmax, min_le_right _ _⟩
  | some r =>
    by_cases hr : 0 < r
    · simp only [hr, if_true]
      exact ⟨le_min hr.le hmax, min_le_right _ _⟩
    · simp only [hr, if_false]
      exact ⟨le_min hraw hmax, min_le_right _ _⟩

lemma retryAux_sleeps_bound {α : Type} (op : ℤ → Except Exc α)
    (max_attempts : ℤ) (base max_delay : ℚ) (jitter : ℤ → ℚ)
    (hbase : 0 ≤ base) (hmax : 0 ≤ max_delay) (hjit : ∀ a, 0 ≤ jitter a) :
    ∀ (remaining : ℕ) (attempt : ℤ) (last : Option Exc) (calls : ℕ)
      (sleeps : List ℚ),
      (∀ d ∈ sleeps, 0 ≤ d ∧ d ≤ max_delay) →
      ∀ d ∈ (retryAux op max_attempts base max_delay jitter
          remaining attempt last calls sleeps).2.2,
        0 ≤ d ∧ d ≤ max_delay := by
  intro remaining
  induction remaining with
  | zero =>
    intro attempt last calls sleeps hs d hd
    exact hs d (by simpa [retryAux] using hd)
  | succ n ih =>
    intro attempt last calls sleeps hs d hd
    cases hop : op attempt with
    | ok v =>
      simp only [retryAux, hop] at hd
      exact hs d (by simpa using hd)
    | error e =>
      have hext : ∀ (delay : ℚ),
          (0 ≤ delay ∧ delay ≤ max_delay) →
          ∀ x ∈ sleeps ++ [delay], 0 ≤ x ∧ x ≤ max_delay := by
        intro delay hdel x hx
        rcases List.mem_append.1 hx with h | h
        · exact hs x h
        · simpa [List.mem_singleton.1 h] using hdel
      cases e with
      | authenticationError m =>
        simp only [retryAux, hop] at hd
        exact hs d (by simpa using hd)
      | resourceNotFoundError m s =>
        simp only [retryAux, hop] at hd
        exact hs d (by simpa using hd)
      | apiError m s ra =>
        by_cases hc : (Exc.apiError m s ra).is_transient = false ∨ attempt = max_attempts
        · simp only [retryAux, hop, if_pos hc] at hd
          exact hs d (by simpa using hd)
        · simp only [retryAux, hop, if_neg hc] at hd
          exact ih _ _ _ _
            (hext _ (calculate_delay_bounds _ _ _ _ _ hbase hmax (hjit attempt))) d hd
      | connectionError m =>
        by_cases hc : attempt = max_attempts
        · simp only [retryAux, hop, if_pos hc] at hd
          exact hs d (by simpa using hd)
        · simp only [retryAux, hop, if_neg hc] at hd
          exact ih _ _ _ _
            (hext _ (calculate_delay_bounds _ _ _ _ _ hbase hmax (hjit attempt))) d hd
      | timeoutError m =>
        by_cases hc : attempt = max_attempts
        · simp only [retryAux, hop, if_pos hc] at hd
          exact hs d (by simpa using hd)
        · simp only [retryAux, hop, if_neg hc] at hd
          exact ih _ _ _ _
            (hext _ (calculate_delay_bounds _ _ _ _ _ hbase hmax (hjit attempt))) d hd
      | osError m =>
        by_cases hc : attempt = max_attempts
        · simp only [retryAux, hop, if_pos hc] at hd
          exact hs d (by simpa using hd)
        · simp only [retryAux, hop, if_neg hc] at hd
          exact ih _ _ _ _
            (hext _ (calculate_delay_bounds _ _ _ _ _ hbase hmax (hjit attempt))) d hd
      | configError m =>
        simp only [retryAux, hop] at hd
        exact hs d (by simpa using hd)
      | presetError m =>
        simp only [retryAux, hop] at hd
        exact hs d (by simpa using hd)
      | validationError m =>
        simp only [retryAux, hop] at hd
        exact hs d (by simpa using hd)

/-! Claim theorems. -/

/-- C2: for every `ApiError`, `is_transient` is true iff its
`status_code` is one of 408, 429, 500, 502, 503, 504; in particular it
is false for every status in 400, 401, 403, 404, 422 and false when
`status_code` is `None`. -/
theorem apiError_is_transient_iff (m : String) (status : Option ℤ) (ra : Option ℚ) :
    ((Exc.apiError m status ra).is_transient = true ↔
      status = some 408 ∨ status = some 429 ∨ status = some 500 ∨
      status = some 502 ∨ status = some 503 ∨ status = some 504) ∧
    (Exc.apiError m none ra).is_transient = false ∧
    (∀ s : ℤ, s ∈ ([400, 401, 403, 404, 422] : List ℤ) →
      (Exc.apiError m (some s) ra).is_transient = false) := by
  refine ⟨?_, by simp [Exc.is_transient], ?_⟩
  · cases status with
    | none => simp [Exc.is_transient]
    | some s => simp [Exc.is_transient, TRANSIENT_STATUS_CODES]
  · intro s hs
    fin_cases hs <;> simp [Exc.is_transient, TRANSIENT_STATUS_CODES]

/-- Witness for C2 at a concrete `ApiError`. -/
theorem apiError_is_transient_iff_witness :
    ((Exc.apiError "rate limited" (some 429) none).is_transient = true ↔
      some (429 : ℤ) = some 408 ∨ some (429 : ℤ) = some 429 ∨
      some (429 : ℤ) = some 500 ∨ some (429 : ℤ) = some 502 ∨
      some (429 : ℤ) = some 503 ∨ some (429 : ℤ) = some 504) ∧
    (Exc.apiError "rate limited" none none).is_transient = false ∧
    (∀ s : ℤ, s ∈ ([400, 401, 403, 404, 422] : List ℤ) →
      (Exc.apiError "rate limited" (some s) none).is_transient = false) :=
  apiError_is_transient_iff "rate limited" (some 429) none

/-- C4: the backoff calculator agrees with the spec's reference
definition everywhere; a positive `retry_after` yields exactly
`min(retry_after, max_delay)` independently of the jitter (so 5.0
against caps 30 and 3 yields 5.0 and 3.0), and otherwise the delay is
`min(base * 2^(attempt-1) + jitter, max_delay)` (so with jitter 0 and
base 1, cap 30, attempts 1, 2, 3 yield 1, 2, 4). -/
theorem calculate_delay_matches_spec (attempt : ℤ) (base max_delay : ℚ)
    (retry_after : Option ℚ) (jitter : ℚ) (h1 : 1 ≤ attempt) :
    _calculate_delay attempt base max_delay retry_after jitter =
      delaySpec attempt base max_delay retry_after jitter ∧
    (∀ r : ℚ, 0 < r → ∀ j : ℚ,
      _calculate_delay attempt base max_delay (some r) j = min r max_delay) ∧
    (∀ j : ℚ, _calculate_delay attempt base max_delay none j =
      min (base * (2 : ℚ) ^ (attempt - 1) + j) max_delay) ∧
    (∀ j : ℚ, _calculate_delay 1 1 30 (some 5) j = 5) ∧
    (∀ j : ℚ, _calculate_delay 1 1 3 (some 5) j = 3) ∧
    _calculate_delay 1 1 30 none 0 = 1 ∧
    _calculate_delay 2 1 30 none 0 = 2 ∧
    _calculate_delay 3 1 30 none 0 = 4 := by
  refine ⟨?_, ?_, fun j => rfl, ?_, ?_, ?_, ?_, ?_⟩
  · unfold _calculate_delay delaySpec
    cases retry_after with
    | none => simp
    | some r => by_cases hr : 0 < r <;> simp [hr]
  · intro r hr j
    simp [_calculate_delay, hr]
  · intro j
    simp only [_calculate_delay, show (0 : ℚ) < 5 by norm_num, if_true]
    norm_num [min_def]
  · intro j
    simp only [_calculate_delay, show (0 : ℚ) < 5 by norm_num, if_true]
    norm_num [min_def]
  · simp only [_calculate_delay]
    norm_num [min_def]
  · simp only [_calculate_delay]
    norm_num [min_def]
  · simp only [_calculate_delay]
    norm_num [min_def]

/-- Witness for C4 at attempt 1. -/
theorem calculate_delay_matches_spec_witness :
    _calculate_delay 1 1 30 none 0 = delaySpec 1 1 30 none 0 ∧
    (∀ r : ℚ, 0 < r → ∀ j : ℚ,
      _calculate_delay 1 1 30 (some r) j = min r 30) ∧
    (∀ j : ℚ, _calculate_delay 1 1 30 none j =
      min (1 * (2 : ℚ) ^ ((1 : ℤ) - 1) + j) 30) ∧
    (∀ j : ℚ, _calculate_delay 1 1 30 (some 5) j = 5) ∧
    (∀ j : ℚ, _calculate_delay 1 1 3 (some 5) j = 3) ∧
    _calculate_delay 1 1 30 none 0 = 1 ∧
    _calculate_delay 2 1 30 none 0 = 2 ∧
    _calculate_delay 3 1 30 none 0 = 4 :=
  calculate_delay_matches_spec 1 1 30 none 0 (by norm_num)

/-- C9: for every attempt ≥ 1, nonnegative base and cap, and every
`retry_after` value (`None`, zero, or negative included), the computed
delay is nonnegative and at most `max_delay`; a non-positive
`retry_after` is ignored in favour of the backoff branch; and every
duration the retry engine ever passes to `time.sleep` obeys the same
bounds. -/
theorem calculate_delay_safe {α : Type} (attempt : ℤ) (base max_delay : ℚ)
    (jitter : ℤ → ℚ) (h1 : 1 ≤ attempt) (hbase : 0 ≤ base)
    (hmax : 0 ≤ max_delay) (hjit : ∀ a, 0 ≤ jitter a) :
    (∀ ra : Option ℚ,
      0 ≤ _calculate_delay attempt base max_delay ra (jitter attempt) ∧
      _calculate_delay attempt base max_delay ra (jitter attempt) ≤ max_delay) ∧
    (∀ r : ℚ, r ≤ 0 →
      _calculate_delay attempt base max_delay (some r) (jitter attempt) =
        _calculate_delay attempt base max_delay none (jitter attempt)) ∧
    (∀ (op : ℤ → Except Exc α) (max_attempts : ℤ),
      ∀ d ∈ (retry_on_transient op max_attempts base max_delay jitter).2.2,
        0 ≤ d ∧ d ≤ max_delay) := by
  refine ⟨?_, ?_, ?_⟩
  · intro ra
    exact calculate_delay_bounds attempt base max_delay ra (jitter attempt)
      hbase hmax (hjit attempt)
  · intro r hr
    simp [_calculate_delay, not_lt.2 hr]
  · intro op max_attempts d hd
    exact retryAux_sleeps_bound op max_attempts base max_delay jitter
      hbase hmax hjit max_attempts.toNat 1 none 0 [] (by simp) d hd

/-- Witness for C9 with a concrete jitter source. -/
theorem calculate_delay_safe_witness :
    (∀ ra : Option ℚ,
      0 ≤ _calculate_delay 1 1 30 ra ((fun _ => (0 : ℚ)) (1 : ℤ)) ∧
      _calculate_delay 1 1 30 ra ((fun _ => (0 : ℚ)) (1 : ℤ)) ≤ 30) ∧
    (∀ r : ℚ, r ≤ 0 →
      _calculate_delay 1 1 30 (some r) ((fun _ => (0 : ℚ)) (1 : ℤ)) =
        _calculate_delay 1 1 30 none ((fun _ => (0 : ℚ)) (1 : ℤ))) ∧
    (∀ (op : ℤ → Except Exc ℕ) (max_attempts : ℤ),
      ∀ d ∈ (retry_on_transient op max_attempts 1 30 (fun _ => (0 : ℚ))).2.2,
        0 ≤ d ∧ d ≤ 30) :=
  calculate_delay_safe 1 1 30 (fun _ => 0) (by norm_num) (by norm_num)
    (by norm_num) (fun a => le_refl 0)

/-- C1: an operation that raises `AuthenticationError` or
`ResourceNotFoundError` on its first invocation is invoked exactly once,
no sleep is performed, and the same error propagates, for every
`max_attempts ≥ 1`. -/
theorem retry_terminal_single_attempt {α : Type} (op : ℤ → Except Exc α)
    (max_attempts : ℤ) (base_delay max_delay : ℚ) (jitter : ℤ → ℚ) (e : Exc)
    (hmax : 1 ≤ max_attempts) (hop : op 1 = .error e)
    (hterm : (∃ m, e = .authenticationError m) ∨
      ∃ m s, e = .resourceNotFoundError m s) :
    retry_on_transient op max_attempts base_delay max_delay jitter =
      (.raised e, 1, []) := by
  obtain ⟨n, hn⟩ : ∃ n, max_attempts.toNat = n + 1 :=
    ⟨max_attempts.toNat - 1, by omega⟩
  unfold retry_on_transient
  rw [hn]
  rcases hterm with ⟨m, rfl⟩ | ⟨m, s, rfl⟩ <;> simp [retryAux, hop]

/-- Witness for C1: a constant `AuthenticationError` with
`max_attempts = 5`. -/
theorem retry_terminal_single_attempt_witness :
    retry_on_transient
        (fun _ => (.error (.authenticationError "Invalid API key.") : Except Exc ℕ))
        5 1 30 (fun _ => 0) =
      (.raised (.authenticationError "Invalid API key."), 1, []) :=
  retry_terminal_single_attempt _ 5 1 30 _ _ (by norm_num) rfl
    (Or.inl ⟨"Invalid API key.", rfl⟩)

/-- C3: an operation that always raises a transient `ApiError` with
status 503, run with `max_attempts = 3`, is invoked exactly 3 times and
the final outcome is that same raised error (never a success); the two
intermediate sleeps are the computed backoff delays. -/
theorem retry_exhaustion_three {α : Type} (op : ℤ → Except Exc α)
    (base_delay max_delay : ℚ) (jitter : ℤ → ℚ) (m : String) (ra : Option ℚ)
    (hop : ∀ i, op i = .error (.apiError m (some 503) ra)) :
    retry_on_transient op 3 base_delay max_delay jitter =
      (.raised (.apiError m (some 503) ra), 3,
        [_calculate_delay 1 base_delay max_delay ra (jitter 1),
         _calculate_delay 2 base_delay max_delay ra (jitter 2)]) := by
  norm_num [retry_on_transient, retryAux, hop, Exc.is_transient,
    Exc.get_retry_after, TRANSIENT_STATUS_CODES]

/-- Witness for C3: a concrete operation that always raises
`ApiError(status=503)`. -/
theorem retry_exhaustion_three_witness :
    retry_on_transient
        (fun _ => (.error (.apiError "boom" (some 503) none) : Except Exc ℕ))
        3 1 30 (fun _ => 0) =
      (.raised (.apiError "boom" (some 503) none), 3,
        [_calculate_delay 1 1 30 none ((fun _ => (0 : ℚ)) (1 : ℤ)),
         _calculate_delay 2 1 30 none ((fun _ => (0 : ℚ)) (2 : ℤ))]) :=
  retry_exhaustion_three _ 1 30 _ "boom" none (fun i => rfl)

/-- C10: with `max_attempts < 1` the attempt loop body never runs, the
operation is never invoked, and the trailing `raise last_exception`
raises `None` — a `TypeError`, not any `ErrorKind`. -/
theorem retry_no_attempts {α : Type} (op : ℤ → Except Exc α)
    (max_attempts : ℤ) (base_delay max_delay : ℚ) (jitter : ℤ → ℚ)
    (hmax : max_attempts < 1) :
    retry_on_transient op max_attempts base_delay max_delay jitter =
      (.typeError, 0, []) := by
  have h : max_attempts.toNat = 0 := by omega
  simp [retry_on_transient, h, retryAux]

/-- Witness for C10 at `max_attempts = 0`. -/
theorem retry_no_attempts_witness :
    retry_on_transient (fun _ => (.ok 7 : Except Exc ℕ)) 0 1 30 (fun _ => 0) =
      (.typeError, 0, []) :=
  retry_no_attempts _ 0 1 30 _ (by norm_num)

lemma collectLoop_no_stop {β γ : Type} (f : β → Except Exc γ)
    (toStr : β → String) :
    ∀ (l : List β) (acc : BatchResult β γ),
      collectLoop f toStr false l acc =
        .ok ⟨acc.succeeded ++ l.filterMap (okOf f),
             acc.failed ++ l.filterMap (errOf f)⟩ := by
  intro l
  induction l with
  | nil => intro acc; simp [collectLoop]
  | cons a rest ih =>
    intro acc
    cases hfa : f a with
    | ok v =>
      simp only [collectLoop, hfa, ih]
      simp [okOf, errOf, hfa, List.filterMap_cons, Except.toOption]
    | error e =>
      simp only [collectLoop, hfa, Bool.false_eq_true, if_false, ih]
      simp [okOf, errOf, hfa, List.filterMap_cons, Except.toOption]

lemma filterMap_ok_err_length {β γ : Type} (f : β → Except Exc γ) :
    ∀ l : List β,
      (l.filterMap (okOf f)).length + (l.filterMap (errOf f)).length = l.length := by
  intro l
  induction l with
  | nil => simp
  | cons a rest ih =>
    cases hfa : f a with
    | ok v =>
      simp [List.filterMap_cons, okOf, errOf, hfa, Except.toOption]
      omega
    | error e =>
      simp [List.filterMap_cons, okOf, errOf, hfa, Except.toOption]
      omega

lemma collectLoop_stop {β γ : Type} (f : β → Except Exc γ)
    (toStr : β → String) :
    ∀ (l : List β) (acc : BatchResult β γ),
      (∃ a ∈ l, ∃ e, f a = .error e) →
      ∃ (pre : List β) (a₀ : β) (e₀ : Exc) (post : List β),
        l = pre ++ a₀ :: post ∧
        (∀ b ∈ pre, ∃ v, f b = .ok v) ∧
        f a₀ = .error e₀ ∧
        collectLoop f toStr true l acc =
          .error ⟨"Stopped on error processing " ++ toStr a₀ ++ ": " ++ e₀.str, e₀⟩ := by
  intro l
  induction l with
  | nil =>
    rintro acc ⟨a, ha, _⟩
    simp at ha
  | cons a rest ih =>
    rintro acc ⟨b, hb, e, hbe⟩
    cases hfa : f a with
    | error e' =>
      refine ⟨[], a, e', rest, rfl, by simp, hfa, ?_⟩
      simp [collectLoop, hfa]
    | ok v =>
      have hrest : ∃ x ∈ rest, ∃ e, f x = .error e := by
        rcases List.mem_cons.1 hb with rfl | hmem
        · rw [hfa] at hbe; simp at hbe
        · exact ⟨b, hmem, e, hbe⟩
      obtain ⟨pre, a₀, e₀, post, hsplit, hpre, ha₀, hrun⟩ :=
        ih ⟨acc.succeeded ++ [v], acc.failed⟩ hrest
      refine ⟨a :: pre, a₀, e₀, post, by simp [hsplit], ?_, ha₀, ?_⟩
      · intro x hx
        rcases List.mem_cons.1 hx with rfl | hmem
        · exact ⟨v, hfa⟩
        · exact hpre x hmem
      · simp [collectLoop, hfa, hrun]

/-- C5: with `stop_on_error=False` and a non-empty input, `parallel_map`
returns a `BatchResult` whose `succeeded` collects exactly the results
of the succeeding items and whose `failed` collects exactly the
`(item, error)` pairs of the failing ones, in completion order, with
`total` equal to the input length — every item accounted for exactly
once, for every completion order. -/
theorem parallel_map_complete {β γ : Type} (f : β → Except Exc γ)
    (toStr : β → String) (items order : List β)
    (hne : items ≠ []) (hperm : order.Perm items) :
    parallel_map f toStr items order false =
      .ok ⟨order.filterMap (okOf f), order.filterMap (errOf f)⟩ ∧
    (BatchResult.mk (order.filterMap (okOf f)) (order.filterMap (errOf f))
      : BatchResult β γ).total = items.length ∧
    (order.filterMap (okOf f)).length + (order.filterMap (errOf f)).length
      = items.length := by
  have hlen := filterMap_ok_err_length f order
  have hol : order.length = items.length := hperm.length_eq
  have hie : items.isEmpty = false := by
    cases items with
    | nil => exact absurd rfl hne
    | cons a l => rfl
  refine ⟨?_, ?_, by omega⟩
  · simp only [parallel_map, hie, Bool.false_eq_true, if_false]
    simpa using collectLoop_no_stop f toStr order ⟨[], []⟩
  · simp only [BatchResult.total]
    omega

/-- Witness for C5 on a concrete three-item batch with one failure. -/
theorem parallel_map_complete_witness :
    parallel_map (fun n => if n = 2 then .error (.apiError "boom" none none) else .ok n)
        (fun n => toString n) [1, 2, 3] [1, 2, 3] false =
      .ok ⟨([1, 2, 3] : List ℕ).filterMap
            (okOf (fun n => if n = 2 then .error (.apiError "boom" none none) else .ok n)),
          ([1, 2, 3] : List ℕ).filterMap
            (errOf (fun n => if n = 2 then .error (.apiError "boom" none none) else .ok n))⟩ ∧
    (BatchResult.mk
        (([1, 2, 3] : List ℕ).filterMap
          (okOf (fun n => if n = 2 then .error (.apiError "boom" none none) else .ok n)))
        (([1, 2, 3] : List ℕ).filterMap
          (errOf (fun n => if n = 2 then .error (.apiError "boom" none none) else .ok n)))
      : BatchResult ℕ ℕ).total = ([1, 2, 3] : List ℕ).length ∧
    (([1, 2, 3] : List ℕ).filterMap
        (okOf (fun n => if n = 2 then .error (.apiError "boom" none none) else .ok n))).length +
      (([1, 2, 3] : List ℕ).filterMap
        (errOf (fun n => if n = 2 then .error (.apiError "boom" none none) else .ok n))).length
      = ([1, 2, 3] : List ℕ).length :=
  parallel_map_complete _ _ [1, 2, 3] [1, 2, 3] (by decide) (List.Perm.refl _)

/-- C6: with `stop_on_error=True`, as soon as some item fails,
`parallel_map` raises `StopOnError` whose message names the first
failing item in completion order and whose cause is that item's error,
and it never returns a `BatchResult` — completed work is not reported
back. -/
theorem parallel_map_stop_on_error {β γ : Type} (f : β → Except Exc γ)
    (toStr : β → String) (items order : List β)
    (hperm : order.Perm items)
    (hfail : ∃ a ∈ order, ∃ e, f a = .error e) :
    ∃ (pre : List β) (a₀ : β) (e₀ : Exc) (post : List β),
      order = pre ++ a₀ :: post ∧
      (∀ b ∈ pre, ∃ v, f b = .ok v) ∧
      f a₀ = .error e₀ ∧
      parallel_map f toStr items order true =
        .error ⟨"Stopped on error processing " ++ toStr a₀ ++ ": " ++ e₀.str, e₀⟩ ∧
      ∀ res : BatchResult β γ, parallel_map f toStr items order true ≠ .ok res := by
  have hne : items ≠ [] := by
    rcases hfail with ⟨a, ha, _⟩
    intro h
    subst h
    rw [hperm.eq_nil] at ha
    simp at ha
  have hie : items.isEmpty = false := by
    cases items with
    | nil => exact absurd rfl hne
    | cons a l => rfl
  obtain ⟨pre, a₀, e₀, post, hsplit, hpre, ha₀, hrun⟩ :=
    collectLoop_stop f toStr order ⟨[], []⟩ hfail
  refine ⟨pre, a₀, e₀, post, hsplit, hpre, ha₀, ?_, ?_⟩
  · simp only [parallel_map, hie, Bool.false_eq_true, if_false]
    exact hrun
  · intro res hres
    simp only [parallel_map, hie, Bool.false_eq_true, if_false] at hres
    rw [hrun] at hres
    simp at hres

/-- Witness for C6: a deterministic failure on item 2 of 5. -/
theorem parallel_map_stop_on_error_witness :
    ∃ (pre : List ℕ) (a₀ : ℕ) (e₀ : Exc) (post : List ℕ),
      [1, 2, 3, 4, 5] = pre ++ a₀ :: post ∧
      (∀ b ∈ pre, ∃ v,
        (fun n => if n = 2 then (.error (.apiError "boom" none none) : Except Exc ℕ)
          else .ok n) b = .ok v) ∧
      (fun n => if n = 2 then (.error (.apiError "boom" none none) : Except Exc ℕ)
        else .ok n) a₀ = .error e₀ ∧
      parallel_map
          (fun n => if n = 2 then (.error (.apiError "boom" none none) : Except Exc ℕ)
            else .ok n)
          (fun n => toString n) [1, 2, 3, 4, 5] [1, 2, 3, 4, 5] true =
        .error ⟨"Stopped on error processing " ++ toString a₀ ++ ": " ++ e₀.str, e₀⟩ ∧
      ∀ res : BatchResult ℕ ℕ,
        parallel_map
            (fun n => if n = 2 then (.error (.apiError "boom" none none) : Except Exc ℕ)
              else .ok n)
            (fun n => toString n) [1, 2, 3, 4, 5] [1, 2, 3, 4, 5] true ≠ .ok res :=
  parallel_map_stop_on_error _ _ [1, 2, 3, 4, 5] [1, 2, 3, 4, 5]
    (List.Perm.refl _) ⟨2, by decide, .apiError "boom" none none, rfl⟩

/-- C7 counterexample: a GraphQL request answered with HTTP 404 is
classified by `_execute_once` as a plain non-transient `ApiError` with
status 404 (exit code 4) — not as the `ResourceNotFound` kind the claim
requires. -/
theorem graphql_404_counterexample :
    _execute_once (fun _ => none) (.response 404 none none none) =
      .error (.apiError "GraphQL request failed with status 404" (some 404) none) ∧
    (match _execute_once (fun _ => none) (.response 404 none none none) with
     | .error e => e.isResourceNotFound
     | .ok _ => false) = false ∧
    (Exc.apiError "GraphQL request failed with status 404" (some 404) none).is_transient
      = false ∧
    (Exc.apiError "GraphQL request failed with status 404" (some 404) none).exit_code
      = some 4 := by
  refine ⟨rfl, rfl, by decide, rfl⟩

/-- C7 amended: the REST layer classifies an SDK failure whose message
mentions "404" or "not found" (and not "401"/"unauthorized") as
`ResourceNotFoundError` (exit code 5, never transient), and a
single-resource lookup returning an empty or null result likewise; a
GraphQL request answered with HTTP 404, however, yields a non-transient
`ApiError` with status 404, not `ResourceNotFound`. -/
theorem notFound_classification {α : Type} (msg : String)
    (hmsg : strContains msg "404" = true ∨
      strContains (strLower msg) "not found" = true)
    (h401 : strContains msg "401" = false)
    (hunauth : strContains (strLower msg) "unauthorized" = false) :
    _call_once (.error msg : Except String α) =
      .error (.resourceNotFoundError msg none) ∧
    (Exc.resourceNotFoundError msg none).exit_code = some 5 ∧
    (Exc.resourceNotFoundError msg none).is_transient = false ∧
    (∀ (pid : String) (res : Except Exc (Option Dict)),
      res = .ok none ∨ res = .ok (some []) →
      get_pod pid res =
        .error (.resourceNotFoundError ("Pod '" ++ pid ++ "' not found.") none)) ∧
    (∀ pf : String → Option ℚ,
      _execute_once pf (.response 404 none none none) =
        .error (.apiError "GraphQL request failed with status 404" (some 404) none)) := by
  refine ⟨?_, rfl, rfl, ?_, fun pf => rfl⟩
  · simp only [_call_once, h401, hunauth, Bool.or_self, Bool.false_eq_true, if_false]
    rcases hmsg with h | h <;> simp [h]
  · rintro pid res (rfl | rfl) <;> simp [get_pod]

/-- Witness for C7's amended claim on a concrete SDK message. -/
theorem notFound_classification_witness :
    _call_once (.error "pod abc: 404 not found" : Except String ℕ) =
      .error (.resourceNotFoundError "pod abc: 404 not found" none) ∧
    (Exc.resourceNotFoundError "pod abc: 404 not found" none).exit_code = some 5 ∧
    (Exc.resourceNotFoundError "pod abc: 404 not found" none).is_transient = false ∧
    (∀ (pid : String) (res : Except Exc (Option Dict)),
      res = .ok none ∨ res = .ok (some []) →
      get_pod pid res =
        .error (.resourceNotFoundError ("Pod '" ++ pid ++ "' not found.") none)) ∧
    (∀ pf : String → Option ℚ,
      _execute_once pf (.response 404 none none none) =
        .error (.apiError "GraphQL request failed with status 404" (some 404) none)) :=
  notFound_classification "pod abc: 404 not found" (Or.inl rfl) rfl rfl

lemma isPrefixOf_append_self : ∀ (l t : List Char), l.isPrefixOf (l ++ t) = true := by
  intro l t
  induction l with
  | nil => simp [List.isPrefixOf]
  | cons a as ih => simp [List.isPrefixOf, ih]

lemma containsList_append_middle : ∀ (pre mid post : List Char),
    containsList mid (pre ++ mid ++ post) = true := by
  intro pre mid post
  induction pre with
  | nil =>
    cases mid with
    | nil => cases post <;> simp [containsList]
    | cons m ms => simp [containsList, isPrefixOf_append_self]
  | cons p ps ih =>
    rw [show ((p :: ps) ++ mid ++ post) = p :: (ps ++ mid ++ post) by simp]
    rw [containsList, ih, Bool.or_true]

lemma timeoutMessage_contains_label (timeout : ℚ) (label status : String) :
    strContains (timeoutMessage timeout label status) label = true := by
  have h := containsList_append_middle
    ("Timed out after " ++ toString timeout ++ "s waiting for ").data
    label.data (". Last status: " ++ status).data
  simpa [strContains, timeoutMessage, String.data_append, List.append_assoc] using h

lemma timeoutMessage_contains_status (timeout : ℚ) (label status : String) :
    strContains (timeoutMessage timeout label status) status = true := by
  have h := containsList_append_middle
    ("Timed out after " ++ toString timeout ++ "s waiting for " ++ label
      ++ ". Last status: ").data
    status.data []
  simpa [strContains, timeoutMessage, String.data_append, List.append_assoc] using h

lemma pollAux_times_out (check : ℕ → Bool × String)
    (deadline timeout interval : ℚ) (label : String) (times : ℕ → ℚ)
    (hnever : ∀ j, (check j).1 = false) :
    ∀ (n k r : ℕ) (sleeps : List ℚ) (fuel : ℕ),
      deadline ≤ times (r + 2 * n) → n + 1 ≤ fuel →
      ∃ j, j ≤ n ∧
        (pollAux check deadline timeout interval label times fuel k r sleeps).1 =
          .timeoutErr (timeoutMessage timeout label (check (k + j)).2) ∧
        (pollAux check deadline timeout interval label times fuel k r sleeps).2.1
          = k + j + 1 ∧
        deadline ≤ times (r + 2 * j) := by
  intro n
  induction n with
  | zero =>
    intro k r sleeps fuel hdl hfuel
    obtain ⟨f', rfl⟩ : ∃ f', fuel = f' + 1 := ⟨fuel - 1, by omega⟩
    have hr : deadline ≤ times r := by simpa using hdl
    refine ⟨0, le_refl 0, ?_, ?_, by simpa using hdl⟩ <;>
      simp [pollAux, hnever k, hr]
  | succ n ih =>
    intro k r sleeps fuel hdl hfuel
    obtain ⟨f', rfl⟩ : ∃ f', fuel = f' + 1 := ⟨fuel - 1, by omega⟩
    by_cases hnow : deadline ≤ times r
    · refine ⟨0, by omega, ?_, ?_, by simpa using hnow⟩ <;>
        simp [pollAux, hnever k, hnow]
    · have hstep :
          pollAux check deadline timeout interval label times (f' + 1) k r sleeps =
            pollAux check deadline timeout interval label times f' (k + 1) (r + 2)
              (sleeps ++ [min interval (max 0 (deadline - times (r + 1)))]) := by
        simp [pollAux, hnever k, hnow]
      have hdl' : deadline ≤ times (r + 2 + 2 * n) := by
        have harith : r + 2 + 2 * n = r + 2 * (n + 1) := by ring
        rw [harith]; exact hdl
      obtain ⟨j, hj, h1, h2, h3⟩ := ih (k + 1) (r + 2) _ f' hdl' (by omega)
      refine ⟨j + 1, by omega, ?_, ?_, ?_⟩
      · rw [hstep]
        have harith : k + 1 + j = k + (j + 1) := by omega
        rw [← harith]; exact h1
      · rw [hstep, h2]; omega
      · have harith : r + 2 * (j + 1) = r + 2 + 2 * j := by ring
        rw [harith]; exact h3

/-- C8: a check that never reports done makes `poll_until` invoke
`check` at least once, fail with a `PollTimeoutError` raised after an
iteration whose clock reading reached the deadline and whose check
still returned not-done, and the error message contains both the label
and the most recently observed status. -/
theorem poll_until_timeout (check : ℕ → Bool × String) (timeout interval : ℚ)
    (label : String) (times : ℕ → ℚ) (n fuel : ℕ)
    (hnever : ∀ j, (check j).1 = false)
    (hlate : times 0 + timeout ≤ times (1 + 2 * n))
    (hfuel : n + 1 ≤ fuel) :
    ∃ j, j ≤ n ∧
      (poll_until check timeout interval label times fuel).1 =
        .timeoutErr (timeoutMessage timeout label (check j).2) ∧
      (poll_until check timeout interval label times fuel).2.1 = j + 1 ∧
      times 0 + timeout ≤ times (1 + 2 * j) ∧
      strContains (timeoutMessage timeout label (check j).2) label = true ∧
      strContains (timeoutMessage timeout label (check j).2) ((check j).2) = true := by
  obtain ⟨j, hj, h1, h2, h3⟩ :=
    pollAux_times_out check (times 0 + timeout) timeout interval label times hnever
      n 0 1 [] fuel (by simpa [Nat.add_comm] using hlate) hfuel
  refine ⟨j, hj, ?_, ?_, ?_, timeoutMessage_contains_label _ _ _,
    timeoutMessage_contains_status _ _ _⟩
  · simpa [poll_until] using h1
  · simpa [poll_until] using h2
  · simpa [Nat.add_comm] using h3

/-- Witness for C8: a check that always returns `(False, "PENDING")`
with a short timeout on an integer-valued clock. -/
theorem poll_until_timeout_witness :
    ∃ j ≤ 0,
      (poll_until (fun _ => (false, "PENDING")) (1 / 20) (1 / 100) "pod"
          (fun i => (i : ℚ)) 1).1 =
        .timeoutErr (timeoutMessage (1 / 20) "pod" (false, "PENDING").2) ∧
      (poll_until (fun _ => (false, "PENDING")) (1 / 20) (1 / 100) "pod"
          (fun i => (i : ℚ)) 1).2.1 = j + 1 ∧
      ((0 : ℕ) : ℚ) + 1 / 20 ≤ ((1 + 2 * j : ℕ) : ℚ) ∧
      strContains (timeoutMessage (1 / 20) "pod" (false, "PENDING").2) "pod" = true ∧
      strContains (timeoutMessage (1 / 20) "pod" (false, "PENDING").2)
        (false, "PENDING").2 = true := by
  exact poll_until_timeout (fun _ => (false, "PENDING")) (1 / 20) (1 / 100) "pod"
    (fun i => (i : ℚ)) 0 1 (fun j => rfl) (by norm_num) (by norm_num)

end Rpctl
